import Mathlib

/-!
# Verification of `@superhero/http-server`

A shallow embedding, in Lean 4, of the parts of the `superhero/http-server`
repository that the frozen claims C1..C10 are about, together with theorems
settling each claim.

Conventions of the embedding:
* JavaScript values that the code inspects are modelled by small inductive
  types; machine strings by `String`, byte buffers (`Buffer`) by
  `List UInt8`, BigInt counters by `Nat`.
* Stateful code is modelled by explicit state passing; the per-response
  transport (`downstream`) is a record whose fields mirror the node
  `ServerResponse` state the source reads and writes.
* Asynchronous code is modelled by the value it eventually settles on, with
  the event order of the source preserved in the order of state updates.
* `JSON.stringify` applied by the source when ending a response is modelled
  by a constructor tag on the payload (`Payload.jsonError` / `Payload.jsonBody`):
  the claims compare the serialized object, not its character encoding.
-/

namespace HttpServer

/-! ## Body values and deep merge (src/view.js line 53, `@superhero/deep/merge`)

`view.body` holds a JSON-like value.  Mappings carry their fields in
insertion order, as JavaScript objects do. -/

/-- A JSON-like JavaScript value as stored in `view.body`. -/
inductive MVal where
  | obj (fields : List (String × MVal))
  | str (s : String)
  | num (n : Int)
  | bool (b : Bool)
  | null

mutual

/-- Modelled from the spec: the `deepmerge` function of `@superhero/deep/merge`
(imported by src/view.js line 1) is not part of this repository; the spec
describes it as a deep recursive merge where mappings are merged key-wise and
non-mapping values overwrite.  `deepmerge a b` merges the assigned value `b`
into the current value `a`. -/
def deepmerge : MVal → MVal → MVal
  | .obj fa, .obj fb => .obj (mergeFields fa fb)
  | _, b => b
termination_by _a b => (sizeOf b, 0)

/-- Merge the assigned fields `fb` into the current fields `fa`, key-wise and
in order. -/
def mergeFields (fa : List (String × MVal)) : List (String × MVal) → List (String × MVal)
  | [] => fa
  | (k, v) :: rest => mergeFields (upsertField fa k v) rest
termination_by l => (sizeOf l, 0)

/-- Assign one field: if the key exists, deep-merge the new value into the
existing one in place; otherwise append the field. -/
def upsertField : List (String × MVal) → String → MVal → List (String × MVal)
  | [], k, v => [(k, v)]
  | (k', v') :: t, k, v =>
      if k' = k then (k', deepmerge v' v) :: t else (k', v') :: upsertField t k v
termination_by l _ v => (sizeOf v, sizeOf l)

end

/-- The keys of a field list. -/
def fieldKeys (l : List (String × MVal)) : List String := l.map Prod.fst

/-- Whether a value is a mapping (a plain object) for merge purposes. -/
def MVal.isMapping : MVal → Bool
  | .obj _ => true
  | _ => false

/-- src/view.js lines 49-53: the view's body starts as `{}` and every
assignment `view.body = v` performs `body = deepmerge(body, v)`.  Writing the
values `vs` in order yields this body. -/
def bodyAfterWrites (vs : List MVal) : MVal :=
  vs.foldl deepmerge (.obj [])

/-- A value, if it is a mapping, has no duplicate top-level keys.  JavaScript
objects cannot carry duplicate keys, so every value the source ever merges
satisfies this. -/
def topNodup : MVal → Prop
  | .obj f => (fieldKeys f).Nodup
  | _ => True

/-! ## JavaScript string operations

The string methods the source calls, written as structural recursion over
character lists so that every concrete computation reduces. -/

/-- JavaScript `String.prototype.replace` with a plain-string pattern removes
only the first occurrence; recursion over the character list. -/
def removeFirstOccur (pat : List Char) : List Char → List Char
  | [] => []
  | c :: rest =>
      if pat.isPrefixOf (c :: rest) then (c :: rest).drop pat.length
      else c :: removeFirstOccur pat rest

/-- `s.replace(pat, '')` for a plain-string pattern. -/
def jsReplaceFirst (s pat : String) : String := ⟨removeFirstOccur pat.data s.data⟩

/-- `String.prototype.split` with a one-character separator, over the
character list. -/
def jsSplitAux (sep : Char) : List Char → List Char → List (List Char)
  | [], cur => [cur.reverse]
  | c :: rest, cur =>
      if c = sep then cur.reverse :: jsSplitAux sep rest []
      else jsSplitAux sep rest (c :: cur)

/-- `s.split(sep)` for a one-character separator; `''.split(sep)` is `['']`
as in JavaScript. -/
def jsSplit (sep : Char) (s : String) : List String :=
  (jsSplitAux sep s.data []).map String.mk

/-- `s.toLowerCase()` on the ASCII range the header values use. -/
def jsToLower (s : String) : String := ⟨s.data.map Char.toLower⟩

/-- `s.trim()`. -/
def jsTrim (s : String) : String :=
  ⟨((s.data.dropWhile Char.isWhitespace).reverse.dropWhile Char.isWhitespace).reverse⟩

/-- `s.startsWith(p)`. -/
def jsStartsWith (s p : String) : Bool := p.data.isPrefixOf s.data

/-! ## Error-cause values and the detail walk (src/view.js lines 234-287)

`presentError` walks `error.cause` recursively.  The walk distinguishes
JavaScript values by `Object.prototype.toString`, keeps a visited set of the
object references it has entered (modelled by the `id` carried on each
object-like constructor), and pushes strings onto `output.details`. -/

/-- A JavaScript value as inspected by `#addDetailToOutput`.  Object-like
values (`arr`, `err`, `obj`) carry a `Nat` identity standing for the heap
reference the source's `WeakSet` stores. -/
inductive CauseVal where
  | undef
  | null
  | bool (b : Bool)
  | num (n : Int)
  | str (s : String)
  | arr (id : Nat) (elems : List CauseVal)
  | err (id : Nat) (message : String) (code : Option String) (cause : CauseVal)
  | obj (id : Nat)

/-- JavaScript truthiness of a `CauseVal` (`if(cause.cause)` in the source).
`undefined`, `null`, `false`, `0` and the empty string are falsy; every
object is truthy. -/
def jsTruthy : CauseVal → Bool
  | .undef => false
  | .null => false
  | .bool b => b
  | .num n => n != 0
  | .str s => !s.isEmpty
  | _ => true

/-- Truthiness of the `code` field (`if(cause.code)` in the source): absent or
empty-string codes are falsy. -/
def codeTruthy : Option String → Bool
  | none => false
  | some s => !s.isEmpty

/-- `String(cause)` for the values that reach the `default` branch of the
walk's switch. -/
def stringOfCause : CauseVal → String
  | .null => "null"
  | .bool b => if b then "true" else "false"
  | .num n => toString n
  | .str s => s
  | .obj _ => "[object Object]"
  | .arr _ _ => ""
  | .err _ _ _ _ => ""
  | .undef => "undefined"

mutual

/-- src/view.js lines 234-287, `#addDetailToOutput(cause, output, seen)`.
State is threaded explicitly: `seen` is the visited set of object ids, `acc`
the `output.details` list built so far. -/
def addDetailToOutput (cause : CauseVal) (seen : List Nat) (acc : List String) :
    List Nat × List String :=
  match cause with
  | .arr id elems =>
      if id ∈ seen then (seen, acc) else addDetailList elems (id :: seen) acc
  | .err id message code c =>
      if id ∈ seen then (seen, acc)
      else
        let detail := if codeTruthy code
                      then jsTrim ((code.getD "") ++ " - " ++ message)
                      else message
        let acc' := acc ++ [detail]
        if jsTruthy c then addDetailToOutput c (id :: seen) acc' else (id :: seen, acc')
  | .obj id =>
      if id ∈ seen then (seen, acc) else (id :: seen, acc ++ [stringOfCause (.obj id)])
  | .undef => (seen, acc)
  | c => (seen, acc ++ [stringOfCause c])

/-- The `[object Array]` branch: walk each element in order, threading the
visited set and the accumulated details. -/
def addDetailList (cs : List CauseVal) (seen : List Nat) (acc : List String) :
    List Nat × List String :=
  match cs with
  | [] => (seen, acc)
  | c :: rest =>
      let r := addDetailToOutput c seen acc
      addDetailList rest r.1 r.2

end

mutual

/-- The detail walk as the amended claim states it, written compositionally:
it returns the list of detail strings the cause contributes (instead of
appending to an accumulator).  An error cause contributes its message,
prefixed with `<code> - ` and trimmed when a truthy code is present, and its
own cause is walked only when truthy; an array is walked element by element;
`undefined` stops; other values are stringified; a visited id is skipped. -/
def detailsAmended (cause : CauseVal) (seen : List Nat) : List Nat × List String :=
  match cause with
  | .arr id elems =>
      if id ∈ seen then (seen, []) else detailsAmendedList elems (id :: seen)
  | .err id message code c =>
      if id ∈ seen then (seen, [])
      else
        let detail := if codeTruthy code
                      then jsTrim ((code.getD "") ++ " - " ++ message)
                      else message
        if jsTruthy c then
          let r := detailsAmended c (id :: seen)
          (r.1, detail :: r.2)
        else (id :: seen, [detail])
  | .obj id =>
      if id ∈ seen then (seen, []) else (id :: seen, [stringOfCause (.obj id)])
  | .undef => (seen, [])
  | c => (seen, [stringOfCause c])

/-- Element-wise walk of an array cause, compositional form. -/
def detailsAmendedList (cs : List CauseVal) (seen : List Nat) : List Nat × List String :=
  match cs with
  | [] => (seen, [])
  | c :: rest =>
      let r := detailsAmended c seen
      let r' := detailsAmendedList rest r.1
      (r'.1, r.2 ++ r'.2)

end

/-! ## The view state (src/view.js)

The response transport (`downstream`) together with the view's private
fields, as the source reads and writes them.  `written` records each payload
passed to `downstream.end`; ending marks `writableEnded`. -/

/-- The serialized object a response is ended with.  The source applies
`JSON.stringify` to the object; the claims compare the object itself. -/
structure ErrorOutput where
  status : Int
  error : String
  code : Option String
  details : Option (List String)
deriving Repr, DecidableEq

/-- A payload passed to `downstream.end(JSON.stringify(…))`. -/
inductive Payload where
  | jsonError (o : ErrorOutput)
  | jsonBody (b : MVal)

/-- The response-side state a `View` owns: the transport flags and header
table, plus the view's lazily created SSE stream (`#stream`), identified by a
`Nat` standing for the object reference; `idCounter` supplies fresh ids. -/
structure ViewState where
  writableEnded : Bool
  headersSent : Bool
  headers : List (String × String)
  statusCode : Int
  written : List Payload
  streamObj : Option Nat
  piped : Bool
  idCounter : Nat

/-- `downstream.setHeader(k, v)`: replace the header if present, else append.
All header names the source sets are already lower-case. -/
def setHeaderList (hs : List (String × String)) (k v : String) : List (String × String) :=
  if hs.any (fun p => p.1 = k) then hs.map (fun p => if p.1 = k then (k, v) else p)
  else hs ++ [(k, v)]

/-- `downstream.hasHeader(k)`. -/
def hasHeaderList (hs : List (String × String)) (k : String) : Bool :=
  hs.any (fun p => p.1 = k)

/-- `downstream.getHeader(k)`. -/
def getHeaderList (hs : List (String × String)) (k : String) : Option String :=
  (hs.find? (fun p => p.1 = k)).map Prod.snd

/-- `downstream.end(payload)`: record the write and mark the stream ended. -/
def ViewState.endWith (v : ViewState) (p : Payload) : ViewState :=
  { v with writableEnded := true, written := v.written ++ [p] }

/-- src/view.js lines 160-176, `present()`: no-op once the downstream has
ended; otherwise default the content type to `application/json` when headers
are not sent and none is set, then end the downstream with the JSON-serialized
body. -/
def present (v : ViewState) (body : MVal) : ViewState :=
  if v.writableEnded then v
  else
    let v1 := if !v.headersSent && !hasHeaderList v.headers "content-type"
              then { v with headers := setHeaderList v.headers "content-type" "application/json" }
              else v
    v1.endWith (.jsonBody body)

/-- The error value `presentError` receives.  `headers` is `some` exactly when
the error carries a plain-object `headers` mapping (the source checks
`Object.prototype.toString.call(error.headers) === '[object Object]'`);
`statusCode`/`status` are `none` when nullish. -/
structure ErrObj where
  message : String
  code : Option String
  statusCode : Option Int
  status : Option Int
  headers : Option (List (String × String))
  cause : CauseVal

/-- src/view.js lines 186-232, `presentError(error)`: no-op once ended;
otherwise merge the error's headers and default the content type when headers
are unsent, set the status from `statusCode ?? status ?? 500`, build the
output object with the detail walk, drop `details` when empty, and end the
downstream with the JSON-serialized output. -/
def presentError (v : ViewState) (e : ErrObj) : ViewState :=
  if v.writableEnded then v
  else
    let v1 :=
      if !v.headersSent then
        let va :=
          match e.headers with
          | some hs =>
              { v with headers := hs.foldl (fun acc kv => setHeaderList acc kv.1 kv.2) v.headers }
          | none => v
        if !hasHeaderList va.headers "content-type"
        then { va with headers := setHeaderList va.headers "content-type" "application/json" }
        else va
      else v
    let st : Int := e.statusCode.getD (e.status.getD 500)
    let v2 := { v1 with statusCode := st }
    let ds := (addDetailToOutput e.cause [] []).2
    let out : ErrorOutput :=
      { status := st, error := e.message, code := e.code,
        details := if ds.isEmpty then none else some ds }
    v2.endWith (.jsonError out)

/-- src/view.js lines 118-148, the `#lazyloadStream` getter: return the cached
stream if present; otherwise create the transform (a fresh object id), set
`content-type: text/event-stream`, pipe it into the downstream, cache and
return it. -/
def lazyloadStream (v : ViewState) : Nat × ViewState :=
  match v.streamObj with
  | some s => (s, v)
  | none =>
      let sid := v.idCounter
      let v1 := { v with streamObj := some sid, idCounter := v.idCounter + 1 }
      let v2 := { v1 with headers := setHeaderList v1.headers "content-type" "text/event-stream" }
      let v3 := { v2 with piped := true }
      (sid, v3)

/-! ## The SSE transform encoder (src/view.js lines 125-143)

The transform's encoder runs `JSON.stringify` on each written object and
frames the result as `data: <json>\n\n`; when `JSON.stringify` throws (for a
BigInt, for instance) the write fails with kind
`E_HTTP_SERVER_VIEW_MODEL_CHANNEL_TRANSFORM_FAILED`. -/

/-- A value written to `view.stream`, over the fragment of JavaScript values
the encoder distinguishes: plain strings (no escapes needed), integers,
BigInt (which `JSON.stringify` refuses to serialize), and plain objects. -/
inductive SVal where
  | str (s : String)
  | num (n : Int)
  | bigint (n : Int)
  | obj (fields : List (String × SVal))

mutual

/-- The platform `JSON.stringify` on `SVal`: `.error` models a throw. -/
def jsonStringifySVal : SVal → Except Unit String
  | .str s => .ok ("\"" ++ s ++ "\"")
  | .num n => .ok (toString n)
  | .bigint _ => .error ()
  | .obj fields =>
      match jsonStringifyFields fields with
      | .ok parts => .ok ("\x7b" ++ String.intercalate "," parts ++ "\x7d")
      | .error e => .error e

/-- Serialize the fields of a plain object. -/
def jsonStringifyFields : List (String × SVal) → Except Unit (List String)
  | [] => .ok []
  | (k, v) :: rest =>
      match jsonStringifySVal v, jsonStringifyFields rest with
      | .ok s, .ok ps => .ok (("\"" ++ k ++ "\":" ++ s) :: ps)
      | .error e, _ => .error e
      | .ok _, .error e => .error e

end

/-- src/view.js lines 128-141, the transform callback: frame the stringified
object as an SSE record, or fail the write with the channel-transform error
kind. -/
def sseEncode (v : SVal) : Except String String :=
  match jsonStringifySVal v with
  | .ok s => .ok ("data: " ++ s ++ "\n\n")
  | .error _ => .error "E_HTTP_SERVER_VIEW_MODEL_CHANNEL_TRANSFORM_FAILED"

/-! ## Statistics counters and the request lifecycle (src/index.js)

The four BigInt counters (lines 26-29) are modelled by `Nat`.  For one
request, src/index.js lines 271-274 run `dispatched++`, then wire
`router.dispatch(...).catch(onRejected).then(onCompleted)`; the abort signal
handler (line 262, lines 398-404) runs `abortions++` when the session is
aborted.  Because the rejection handler is attached with `.catch` *before*
`.then`, the completion handler also runs after a handled rejection. -/

/-- The four counters. -/
structure Stats where
  dispatched : Nat
  completed : Nat
  abortions : Nat
  rejections : Nat
deriving Repr, DecidableEq

/-- Line 271: `this.dispatched++`. -/
def onServerRequestStats (s : Stats) : Stats := { s with dispatched := s.dispatched + 1 }

/-- Line 394: `this.completed++` (the `.then` handler). -/
def onRouterDispatchCompletedStats (s : Stats) : Stats := { s with completed := s.completed + 1 }

/-- Line 408: `this.rejections++` (the `.catch` handler). -/
def onRouterDispatchRejectedStats (s : Stats) : Stats := { s with rejections := s.rejections + 1 }

/-- Line 400: `this.abortions++` (the abort-signal handler). -/
def onAbortedRequestStats (s : Stats) : Stats := { s with abortions := s.abortions + 1 }

/-- How one request settles: whether its dispatch promise rejected and whether
its abortion signal fired. -/
structure ReqOutcome where
  rejected : Bool
  aborted : Bool
deriving Repr, DecidableEq

/-- The counter updates one settled request causes, in event order: dispatch,
the abort handler if the session aborted, the `.catch` handler if the promise
rejected, and then — the `.catch` handler having returned normally — the
`.then` handler in every case. -/
def processRequest (s : Stats) (r : ReqOutcome) : Stats :=
  let s1 := onServerRequestStats s
  let s2 := if r.aborted then onAbortedRequestStats s1 else s1
  let s3 := if r.rejected then onRouterDispatchRejectedStats s2 else s2
  onRouterDispatchCompletedStats s3

/-- The counters after a list of requests has fully settled (the server is
drained). -/
def runServer (reqs : List ReqOutcome) : Stats :=
  reqs.foldl processRequest ⟨0, 0, 0, 0⟩

/-! ## The rejection handler (src/index.js lines 406-411)

`#onRouterDispatchRejected(session, reason)` runs `this.rejections++`, then
`session.view.presentError(reason.cause)`, then logs the failure. -/

/-- A rejection reason: an error object with an identity, message, optional
code and a `cause` value (`CauseVal.undef` when absent). -/
structure RejReason where
  id : Nat
  message : String
  code : Option String
  cause : CauseVal

/-- The reason itself viewed as a cause value (used to state what the claim
predicts `presentError` receives when the reason has no cause). -/
def reasonAsCauseVal (r : RejReason) : CauseVal := .err r.id r.message r.code r.cause

/-- JavaScript nullishness (the `??` operator's test). -/
def jsNullish : CauseVal → Bool
  | .undef => true
  | .null => true
  | _ => false

/-- src/index.js line 409: the argument passed to `view.presentError` is
`reason.cause`, unconditionally. -/
def onRouterDispatchRejectedArg (r : RejReason) : CauseVal := r.cause

/-- What the claim says the handler passes: `reason.cause ?? reason`. -/
def claimRejectedArg (r : RejReason) : CauseVal :=
  if jsNullish r.cause then reasonAsCauseVal r else r.cause

/-- The whole handler, src/index.js lines 406-411: the counter bump, the
argument handed to `presentError`, and a flag recording that the failure is
logged after `presentError` returns. -/
def onRouterDispatchRejectedRun (s : Stats) (r : RejReason) : Stats × CauseVal × Bool :=
  (onRouterDispatchRejectedStats s, onRouterDispatchRejectedArg r, true)

/-! ## Accept-header content negotiation

Two sibling implementations:
src/middleware/upstream/header/accept.js (`AcceptHeaderUpstreamMiddleware`)
and src/dispatcher/upstream/header/accept.js
(`AcceptHeaderUpstreamDispatcher`).  Both read `request.headers['accept']`,
normalize, and scan the route's `accept.<media>` keys; on a hit they splice
the route's dispatcher(s), deduplicated against the chain, at
`session.chain.index`; on no match they abort with a 406 error whose
`accept` header lists the supported media types.  The middleware's inner loop
iterates `supports` with `for…in`, so it destructures the array's *index
strings* instead of its `[supported, route]` pairs. -/

/-- A route value: a single dispatcher handle or an array of them (handles
are identified by `Nat`).  Route values present in the table are truthy, so
the source's `&& session.route[key]` filter keeps them all. -/
inductive RVal where
  | one (d : Nat)
  | many (ds : List Nat)

/-- The `#normalize` helper of both files: strip the first `accept.` and
trim. -/
def normalizeAccept (s : String) : String := jsTrim (jsReplaceFirst s "accept.")

/-- Inside the loop each client preference is cut at `;` then at `*`:
`accepted.split(';')[0].split('*')[0]`. -/
def stripMedia (s : String) : String :=
  (jsSplit '*' ((jsSplit ';' s).headD "")).headD ""

/-- `session.route[key]` (property lookup in the route table, insertion
order). -/
def lookupRoute (route : List (String × RVal)) (k : String) : Option RVal :=
  (route.find? (fun p => p.1 = k)).map Prod.snd

/-- `Array.isArray(dispatcher) ? dispatcher : [dispatcher]`: an undefined
lookup is wrapped as the one-element list `[undefined]`, modelled by
`none`. -/
def routeDispatchers : Option RVal → List (Option Nat)
  | some (.one d) => [some d]
  | some (.many ds) => ds.map some
  | none => [none]

/-- `dispatchers.filter((item) => false === session.chain.dispatchers.includes(item))`. -/
def uniqueAgainst (chain : List (Option Nat)) (items : List (Option Nat)) : List (Option Nat) :=
  items.filter (fun d => !chain.contains d)

/-- `session.chain.dispatchers.splice(session.chain.index, 0, …uniqueList)`. -/
def spliceChain (chain : List (Option Nat)) (index : Nat) (items : List (Option Nat)) :
    List (Option Nat) :=
  chain.take index ++ items ++ chain.drop index

/-- The error both files abort with: its code, its `status`, and its
`headers.accept` value when one is set (the template-string `message` and
`cause` are not modelled). -/
structure AbortInfo where
  code : String
  status : Int
  acceptHdr : Option String
deriving Repr, DecidableEq

/-- What a negotiation step does: either splice dispatchers into the chain or
abort the session with an error. -/
inductive MWResult where
  | spliced (chain : List (Option Nat))
  | aborted (a : AbortInfo)
deriving Repr, DecidableEq

/-- `routes = Object.keys(route).filter(startsWith 'accept.')` followed by
`supports = routes.map((route) => [#normalize(route), route])`. -/
def acceptSupports (route : List (String × RVal)) : List (String × String) :=
  ((route.filter (fun p => jsStartsWith p.1 "accept.")).map Prod.fst).map
    (fun k => (normalizeAccept k, k))

/-- `request.headers['accept']?.toLowerCase().split(',') || []` mapped through
`#normalize`. -/
def acceptsOf (header : Option String) : List String :=
  match header with
  | some h => (jsSplit ',' (jsToLower h)).map normalizeAccept
  | none => []

/-- What `for…in` over the `supports` array binds as `supported`: the first
character of the index string (`'0'`, `'1'`, …; `'1'` for index 10). -/
def forInFirst (i : Nat) : String :=
  match (toString i).data with
  | c :: _ => String.singleton c
  | [] => ""

/-- What `for…in` binds as `route`: the second character of the index string
when there is one, else `undefined`. -/
def forInSecond (i : Nat) : Option String :=
  match (toString i).data with
  | _ :: c :: _ => some (String.singleton c)
  | _ => none

/-- The middleware's inner `for…in` loop: scan the indices `0…n-1` of
`supports` for the first whose bound `supported` (an index-string character,
cut at `*`) passes the prefix test against the client preference. -/
def mwFindIndex (a' : String) (n : Nat) : Option Nat :=
  (List.range n).find? (fun i =>
    let sup := (jsSplit '*' (forInFirst i)).headD ""
    jsStartsWith sup a' || jsStartsWith a' sup)

/-- The middleware's outer loop over the client preferences, and its
fall-through abort (code
`E_HTTP_SERVER_MIDDLEWARE_ACCEPT_HEADER_NO_MATCHING_DISPATCHER`, status 406,
`headers.accept` listing the supported set). -/
def mwOuter (route : List (String × RVal)) (chain : List (Option Nat)) (index : Nat)
    (supports : List (String × String)) : List String → MWResult
  | [] =>
      let allowed := supports.map Prod.fst
      .aborted { code := "E_HTTP_SERVER_MIDDLEWARE_ACCEPT_HEADER_NO_MATCHING_DISPATCHER",
                 status := 406, acceptHdr := some (String.intercalate "," allowed) }
  | accepted :: rest =>
      let a' := stripMedia accepted
      match mwFindIndex a' supports.length with
      | some i =>
          let key := (forInSecond i).getD "undefined"
          let ds := routeDispatchers (lookupRoute route key)
          .spliced (spliceChain chain index (uniqueAgainst chain ds))
      | none => mwOuter route chain index supports rest

/-- src/middleware/upstream/header/accept.js lines 9-51,
`AcceptHeaderUpstreamMiddleware.dispatch` (the `for…in` variant). -/
def acceptMiddlewareDispatch (acceptHeader : Option String) (route : List (String × RVal))
    (chain : List (Option Nat)) (index : Nat) : MWResult :=
  mwOuter route chain index (acceptSupports route) (acceptsOf acceptHeader)

/-- Truthiness of the raw header string (`false === !!request.headers['accept']`). -/
def jsStringTruthy : Option String → Bool
  | none => false
  | some s => !s.isEmpty

/-- The dispatcher file's inner loop (`for…of`, the correct pairs): find the
first `[supported, route]` pair whose media type (cut at `*`) passes the
prefix test. -/
def dispFindHit (a' : String) (supports : List (String × String)) : Option (String × String) :=
  supports.find? (fun p =>
    let sup := (jsSplit '*' p.1).headD ""
    jsStartsWith sup a' || jsStartsWith a' sup)

/-- The dispatcher file's outer loop and fall-through abort (code
`E_HTTP_SERVER_ACCEPT_HEADER_NO_ROUTE`, status 406). -/
def dispOuter (route : List (String × RVal)) (chain : List (Option Nat)) (index : Nat)
    (supports : List (String × String)) : List String → MWResult
  | [] =>
      let allowed := supports.map Prod.fst
      .aborted { code := "E_HTTP_SERVER_ACCEPT_HEADER_NO_ROUTE",
                 status := 406, acceptHdr := some (String.intercalate "," allowed) }
  | accepted :: rest =>
      let a' := stripMedia accepted
      match dispFindHit a' supports with
      | some p =>
          let ds := routeDispatchers (lookupRoute route p.2)
          .spliced (spliceChain chain index (uniqueAgainst chain ds))
      | none => dispOuter route chain index supports rest

/-- src/dispatcher/upstream/header/accept.js lines 9-60,
`AcceptHeaderUpstreamDispatcher.dispatch`: abort with
`E_HTTP_SERVER_ACCEPT_HEADER_MISSING` (status 406) when the header is falsy,
else scan exactly like the middleware but over the real `supports` pairs. -/
def acceptDispatcherDispatch (acceptHeader : Option String) (route : List (String × RVal))
    (chain : List (Option Nat)) (index : Nat) : MWResult :=
  if !jsStringTruthy acceptHeader then
    .aborted { code := "E_HTTP_SERVER_ACCEPT_HEADER_MISSING", status := 406, acceptHdr := none }
  else dispOuter route chain index (acceptSupports route) (acceptsOf acceptHeader)

/-! ## The JSON body decoder (src/unnamed/part_005 and part_002)

Both classes run `const body = await request.body` and then `if(body) …`.
The awaited value is a node `Buffer`, which is an object and therefore truthy
even when it holds zero bytes. -/

/-- What the decoder does to the request. -/
inductive JResult where
  | noop
  | replaced (v : MVal)
  | aborted (code : String) (status : Int)

/-- JavaScript truthiness of a `Buffer`: a `Buffer` is an object, so it is
truthy regardless of its length. -/
def bufferTruthy (_b : List UInt8) : Bool := true

/-- `String(body)` on a buffer of ASCII bytes. -/
def asciiDecode (b : List UInt8) : String := ⟨b.map (fun u => Char.ofNat u.toNat)⟩

/-- src/unnamed/part_002 lines 50-73,
`ContentTypeApplicationJsonHeaderUpstreamMiddleware.dispatch`: when the
buffer is truthy, `JSON.parse(body)` (the platform parse is a parameter);
a parse failure aborts with
`E_HTTP_SERVER_MIDDLEWARE_CONTENT_TYPE_APPLICATION_JSON_INVALID_BODY`,
status 400. -/
def ctJsonMiddlewareDispatch (parse : String → Option MVal) (body : List UInt8) : JResult :=
  if bufferTruthy body then
    match parse (asciiDecode body) with
    | some v => .replaced v
    | none => .aborted "E_HTTP_SERVER_MIDDLEWARE_CONTENT_TYPE_APPLICATION_JSON_INVALID_BODY" 400
  else .noop

/-- src/unnamed/part_005 lines 4-26,
`ContentTypeApplicationJsonHeaderUpstreamDispatcher.dispatch`: when the
buffer is truthy, `JSON.parse(String(body) || '\x7b\x7d')`; a parse failure
aborts with `E_HTTP_SERVER_CONTENT_TYPE_HEADER_APPLICATION_JSON`,
status 400. -/
def ctJsonDispatcherDispatch (parse : String → Option MVal) (body : List UInt8) : JResult :=
  if bufferTruthy body then
    let s := asciiDecode body
    let s' := if s.isEmpty then "\x7b\x7d" else s
    match parse s' with
    | some v => .replaced v
    | none => .aborted "E_HTTP_SERVER_CONTENT_TYPE_HEADER_APPLICATION_JSON" 400
  else .noop

/-- A stand-in for the platform `JSON.parse` on exactly the inputs the C6
theorem touches: `JSON.parse('')` throws and `JSON.parse('\x7b\x7d')` yields
the empty object. -/
def toyJsonParse : String → Option MVal :=
  fun s => if s = "\x7b\x7d" then some (.obj []) else none

/-! ## Gateway preface sniffing (src/index.js lines 127-172)

`#onGatewayConnection` arms a 1,000 ms destroy timer, and on the first
`readable` event runs `#readPreface`, which polls `socket.read(24)` once per
tick until it yields data or the socket is destroyed.  The embedding indexes
ticks by `Nat`: `avail t` is the socket's buffered bytes at tick `t`,
`ended t` whether its read side has ended (FIN received and buffered data
drained into `avail t`), and the destroy timer fires at tick `deadline` if
the loop is still running.  `socket.read(n)` returns `n` bytes when
available, all remaining bytes when the stream has ended with a nonempty
buffer, and `null` otherwise. -/

/-- node's `socket.read(n)`. -/
def socketRead (n : Nat) (buffered : List UInt8) (isEnded : Bool) : Option (List UInt8) :=
  if n ≤ buffered.length then some (buffered.take n)
  else if isEnded && !buffered.isEmpty then some buffered
  else none

/-- What `#readPreface` returns: the bytes it read (empty when the socket was
destroyed first), whether the destroy timer fired, and the tick at which the
loop stopped. -/
structure PrefaceResult where
  preface : List UInt8
  destroyed : Bool
  tick : Nat
deriving Repr, DecidableEq

/-- src/index.js lines 136-155: the polling loop, with `fuel = deadline - t`
so that fuel 0 is the tick at which the destroy timer fires; the next
iteration then sees a destroyed socket and returns the empty buffer. -/
def readPrefaceLoop (avail : Nat → List UInt8) (ended : Nat → Bool) :
    Nat → Nat → PrefaceResult
  | 0, t => ⟨[], true, t⟩
  | fuel + 1, t =>
      match socketRead 24 (avail t) (ended t) with
      | some bs => ⟨bs, false, t⟩
      | none => readPrefaceLoop avail ended fuel (t + 1)

/-- The engine a socket is handed to. -/
inductive Engine where
  | h1
  | h2
deriving Repr, DecidableEq

/-- The observable outcome of `#onGatewayConnection` for one accepted socket:
whether it was destroyed, which engine (if any) received it, and the bytes
left buffered on it after the unshift. -/
structure GatewayResult where
  destroyed : Bool
  handoff : Option Engine
  finalBuffer : List UInt8
deriving Repr, DecidableEq

/-- RFC 7540 §3.5: the 24-byte HTTP/2 client connection preface
(src/index.js line 130). -/
def http2Preface : List UInt8 :=
  "PRI * HTTP/2.0\r\n\r\nSM\r\n\r\n".data.map (fun c => UInt8.ofNat c.toNat)

/-- src/index.js lines 157-172, `#onGatewayConnection`: if no byte and no EOF
arrives before the destroy deadline, the `readable` handler never runs and
the timer destroys the socket with no hand-off.  Otherwise the handler runs
the polling loop, clears the timer on success, unshifts the peeked bytes
(restoring the buffer), and emits the socket to the HTTP/2 engine exactly
when the bytes equal the preface, else to the HTTP/1.1 engine. -/
def onGatewayConnection (avail : Nat → List UInt8) (ended : Nat → Bool) (deadline : Nat) :
    GatewayResult :=
  if (List.range deadline).any (fun t => !(avail t).isEmpty || ended t) then
    let r := readPrefaceLoop avail ended deadline 0
    { destroyed := r.destroyed,
      handoff := some (if r.preface = http2Preface then .h2 else .h1),
      finalBuffer := r.preface ++ (avail r.tick).drop r.preface.length }
  else
    { destroyed := true, handoff := none, finalBuffer := avail deadline }

/-- A destroyed socket delivers no bytes to the engine it was handed to, so
a request can only be emitted for a socket that was handed off and not
destroyed. -/
def requestPossible (r : GatewayResult) : Bool :=
  r.handoff.isSome && !r.destroyed

/-! ## Upstream body buffering (src/index.js lines 277-306)

`#bufferBody(upstream, request)` returns a promise.  `request.body` initially
holds that pending promise (line 246); on the upstream's `end` event line 300
assigns `request.body = Buffer.concat(data)` and line 302 resolves the
promise with that same buffer.  If the upstream had already ended the promise
rejects with `E_HTTP_SERVER_READ_BUFFERED_UPSTREAM_CLOSED`. -/

/-- What `request.body` holds at a point in time. -/
inductive ReqBody where
  | pending
  | buf (b : List UInt8)
deriving Repr, DecidableEq

/-- How the buffering promise settles. -/
inductive BodyResolution where
  | resolved (b : List UInt8)
  | rejectedWith (code : String)
deriving Repr, DecidableEq

/-- The buffering lifecycle collapsed to its observables: what `request.body`
holds right after the session is built, what it holds after the `end` event,
and what the promise settles to. -/
structure BufferOutcome where
  initial : ReqBody
  finalBody : ReqBody
  resolution : BodyResolution
deriving Repr, DecidableEq

/-- src/index.js lines 277-306 with the upstream's data events `chunks`
followed by `end`. -/
def bufferBody (readableEnded : Bool) (chunks : List (List UInt8)) : BufferOutcome :=
  if readableEnded then
    { initial := .pending, finalBody := .pending,
      resolution := .rejectedWith "E_HTTP_SERVER_READ_BUFFERED_UPSTREAM_CLOSED" }
  else
    { initial := .pending, finalBody := .buf chunks.flatten,
      resolution := .resolved chunks.flatten }

theorem upsertField_of_not_mem (k : String) (v : MVal) :
    ∀ (fa : List (String × MVal)), k ∉ fieldKeys fa →
      upsertField fa k v = fa ++ [(k, v)] := by
  intro fa
  induction fa with
  | nil => intro _; simp [upsertField]
  | cons hd t ih =>
      intro hk
      obtain ⟨k', v'⟩ := hd
      simp only [fieldKeys, List.map_cons, List.mem_cons] at hk
      push_neg at hk
      have hne : ¬(k' = k) := fun h => hk.1 h.symm
      have hih := ih (by simpa [fieldKeys] using hk.2)
      simp only [upsertField, if_neg hne, hih, List.cons_append]

theorem mergeFields_append (fb : List (String × MVal)) :
    ∀ (fa : List (String × MVal)),
      (∀ k ∈ fieldKeys fb, k ∉ fieldKeys fa) →
      (fieldKeys fb).Nodup →
      mergeFields fa fb = fa ++ fb := by
  induction fb with
  | nil => intro fa _ _; simp [mergeFields]
  | cons hd rest ih =>
      intro fa hdisj hnodup
      obtain ⟨k, v⟩ := hd
      have hk : k ∉ fieldKeys fa := hdisj k (by simp [fieldKeys])
      simp only [fieldKeys, List.map_cons, List.nodup_cons] at hnodup
      rw [mergeFields.eq_2, upsertField_of_not_mem k v fa hk, ih]
      · simp
      · intro k' hk'
        simp only [fieldKeys, List.map_append, List.map_cons, List.map_nil,
          List.mem_append, List.mem_singleton]
        push_neg
        refine ⟨hdisj k' ?_, fun h => hnodup.1 (h ▸ hk')⟩
        simp only [fieldKeys, List.map_cons, List.mem_cons]
        exact Or.inr hk'
      · exact hnodup.2

/-! ## Claim C10: upstream body buffering -/

/-- C10: for a request whose upstream has not already ended when the session
is built, `request.body` initially holds the pending buffering promise; on
the upstream's `end` event the server replaces `request.body` with the
concatenation of all received data chunks, and the promise resolves to that
same buffer. -/
theorem claim_C10_buffer_body (chunks : List (List UInt8)) :
    (bufferBody false chunks).initial = ReqBody.pending ∧
    ∃ b, b = chunks.flatten ∧
      (bufferBody false chunks).finalBody = ReqBody.buf b ∧
      (bufferBody false chunks).resolution = BodyResolution.resolved b := by
  exact ⟨rfl, chunks.flatten, rfl, rfl, rfl⟩

/-! ## Claim C6: the JSON body decoder on an empty body -/

/-- C6: the claim says an empty buffered body is a no-op that leaves
`request.body` untouched.  A node `Buffer` is an object and hence truthy even
at length zero, so the `if(body)` guard does not exclude the empty body:
the part_002 middleware runs `JSON.parse('')`, which throws, and aborts with
the invalid-body error (status 400); the part_005 dispatcher falls back to
parsing `'\x7b\x7d'` and replaces `request.body` with the empty object.
`toyJsonParse` stands in for the platform `JSON.parse` on exactly these two
inputs. -/
theorem claim_C6_empty_body_divergence :
    ctJsonMiddlewareDispatch toyJsonParse [] =
      JResult.aborted "E_HTTP_SERVER_MIDDLEWARE_CONTENT_TYPE_APPLICATION_JSON_INVALID_BODY" 400 ∧
    ctJsonDispatcherDispatch toyJsonParse [] = JResult.replaced (MVal.obj []) ∧
    toyJsonParse "" = none ∧ toyJsonParse "\x7b\x7d" = some (MVal.obj []) := by
  exact ⟨rfl, rfl, rfl, rfl⟩

/-! ## Claim C2: the statistics counters -/

/-- The counter deltas of one settled request, in closed form. -/
theorem processRequest_eq (s : Stats) (r : ReqOutcome) :
    processRequest s r =
      ⟨s.dispatched + 1, s.completed + 1,
       s.abortions + (if r.aborted then 1 else 0),
       s.rejections + (if r.rejected then 1 else 0)⟩ := by
  cases hr : r.aborted <;> cases hj : r.rejected <;>
    simp [processRequest, onServerRequestStats, onAbortedRequestStats,
      onRouterDispatchRejectedStats, onRouterDispatchCompletedStats, hr, hj]

/-- Folding requests from any starting counters adds the request count to
`dispatched` and `completed` and the per-outcome counts to the other two. -/
theorem runServer_foldl (reqs : List ReqOutcome) :
    ∀ s : Stats, reqs.foldl processRequest s =
      ⟨s.dispatched + reqs.length, s.completed + reqs.length,
       s.abortions + reqs.countP (fun r => r.aborted),
       s.rejections + reqs.countP (fun r => r.rejected)⟩ := by
  induction reqs with
  | nil => intro s; simp [List.countP_nil]
  | cons r rest ih =>
      intro s
      simp only [List.foldl_cons, ih, processRequest_eq, List.length_cons,
        List.countP_cons]
      cases hr : r.aborted <;> cases hj : r.rejected <;> simp [hr, hj] <;> omega

/-- C2 counterexample: the claim states that once the server is drained
`dispatched == completed + abortions + rejections`.  A single request whose
dispatch promise rejects is dispatched once, counted once in `rejections` by
the `.catch` handler, and — because the `.catch` handler returns normally —
also counted once in `completed` by the `.then` handler, so the equation
fails: 1 ≠ 1 + 0 + 1. -/
theorem claim_C2_counterexample :
    runServer [⟨true, false⟩] = ⟨1, 1, 0, 1⟩ ∧
    ¬((runServer [⟨true, false⟩]).dispatched =
        (runServer [⟨true, false⟩]).completed + (runServer [⟨true, false⟩]).abortions +
          (runServer [⟨true, false⟩]).rejections) := by
  exact ⟨rfl, by decide⟩

/-- C2 as amended: the four counters are monotonically non-decreasing
(unbounded naturals model the BigInt counters), and once the server is
drained `dispatched == completed == number of requests` while `abortions`
and `rejections` count the aborted and rejected requests; consequently
`dispatched == completed + abortions + rejections` holds exactly when no
request was aborted or rejected. -/
theorem claim_C2_statistics (reqs : List ReqOutcome) :
    ((runServer reqs).dispatched = reqs.length ∧
     (runServer reqs).completed = reqs.length ∧
     (runServer reqs).abortions = reqs.countP (fun r => r.aborted) ∧
     (runServer reqs).rejections = reqs.countP (fun r => r.rejected)) ∧
    ((runServer reqs).dispatched =
        (runServer reqs).completed + (runServer reqs).abortions + (runServer reqs).rejections
      ↔ (runServer reqs).abortions = 0 ∧ (runServer reqs).rejections = 0) ∧
    (∀ (s : Stats) (r : ReqOutcome),
      s.dispatched ≤ (processRequest s r).dispatched ∧
      s.completed ≤ (processRequest s r).completed ∧
      s.abortions ≤ (processRequest s r).abortions ∧
      s.rejections ≤ (processRequest s r).rejections) := by
  refine ⟨?_, ?_, ?_⟩
  · have h := runServer_foldl reqs ⟨0, 0, 0, 0⟩
    simp only [runServer, h]
    omega
  · have h := runServer_foldl reqs ⟨0, 0, 0, 0⟩
    simp only [runServer, h]
    constructor
    · intro he; omega
    · intro he; omega
  · intro s r
    simp only [processRequest_eq]
    refine ⟨by omega, by omega, ?_, ?_⟩ <;> split <;> omega

/-- C2 witness: the amended statement applied to a concrete drained run, one
clean request and one aborted-and-rejected request. -/
theorem claim_C2_statistics_witness :
    (runServer [⟨false, false⟩, ⟨true, true⟩]).dispatched = 2 ∧
    (runServer [⟨false, false⟩, ⟨true, true⟩]).abortions = 1 :=
  ⟨(claim_C2_statistics [⟨false, false⟩, ⟨true, true⟩]).1.1,
   (claim_C2_statistics [⟨false, false⟩, ⟨true, true⟩]).1.2.2.1⟩

/-! ## Claim C7: the rejection handler's argument -/

/-- C7 counterexample: the claim says a rejection reason `r` without a cause
leads to `presentError(r)`; src/index.js line 409 passes `reason.cause`
unconditionally, so `presentError` receives `undefined`, not `r`. -/
theorem claim_C7_counterexample :
    onRouterDispatchRejectedArg ⟨0, "boom", some "E_X", CauseVal.undef⟩ = CauseVal.undef ∧
    claimRejectedArg ⟨0, "boom", some "E_X", CauseVal.undef⟩ =
      reasonAsCauseVal ⟨0, "boom", some "E_X", CauseVal.undef⟩ ∧
    CauseVal.undef ≠ reasonAsCauseVal ⟨0, "boom", some "E_X", CauseVal.undef⟩ :=
  ⟨rfl, rfl, fun h => CauseVal.noConfusion h⟩

/-- C7 as amended: on rejection the handler increments `rejections`, passes
exactly `reason.cause` to `view.presentError` (receiving `undefined` when the
reason has no cause), and logs the failure afterwards; when the reason does
carry a non-nullish cause this agrees with the claim's
`reason.cause ?? reason`. -/
theorem claim_C7_rejection_handler (s : Stats) (r : RejReason) :
    onRouterDispatchRejectedRun s r =
      ({ s with rejections := s.rejections + 1 }, r.cause, true) ∧
    (jsNullish r.cause = false → onRouterDispatchRejectedArg r = claimRejectedArg r) := by
  constructor
  · rfl
  · intro h
    simp [claimRejectedArg, onRouterDispatchRejectedArg, h]

/-- C7 witness: a reason with a string cause agrees with the claim's
`reason.cause ?? reason`. -/
theorem claim_C7_rejection_handler_witness :
    jsNullish (CauseVal.str "deep") = false ∧
    onRouterDispatchRejectedArg ⟨1, "m", none, CauseVal.str "deep"⟩ =
      claimRejectedArg ⟨1, "m", none, CauseVal.str "deep"⟩ :=
  ⟨rfl, (claim_C7_rejection_handler ⟨0, 0, 0, 0⟩ ⟨1, "m", none, CauseVal.str "deep"⟩).2 rfl⟩

/-! ## Claim C4: accept-header negotiation -/

/-- C4: demonstration of the `for…in` defect the spec's open question (a)
flags.  With `Accept: application/json` and a route declaring
`accept.application/json`, the middleware variant compares the client
preference against the index string `"0"` instead of the supported media
type, finds no match, and aborts *NoRoute* (406) with the supported set in
the error's `accept` header — while the sibling dispatcher variant, which
iterates the same `supports` with `for…of`, splices the route's dispatcher
into the chain as the claim describes. -/
theorem claim_C4_accept_for_in_bug :
    acceptMiddlewareDispatch (some "application/json")
        [("accept.application/json", RVal.one 1)] [] 0 =
      MWResult.aborted
        { code := "E_HTTP_SERVER_MIDDLEWARE_ACCEPT_HEADER_NO_MATCHING_DISPATCHER",
          status := 406, acceptHdr := some "application/json" } ∧
    acceptDispatcherDispatch (some "application/json")
        [("accept.application/json", RVal.one 1)] [] 0 =
      MWResult.spliced [some 1] :=
  ⟨rfl, rfl⟩

/-! ## Header-table lemmas -/

theorem find?_of_any_false {p : String × String → Bool} {l : List (String × String)}
    (h : l.any p = false) : l.find? p = none :=
  List.find?_eq_none.mpr (List.any_eq_false.mp h)

theorem find?_map_replace (k v : String) :
    ∀ t : List (String × String), t.any (fun q => q.1 = k) = true →
      (t.map (fun q => if q.1 = k then (k, v) else q)).find? (fun q => q.1 = k) =
        some (k, v) := by
  intro t
  induction t with
  | nil => intro h; simp at h
  | cons hd tt ih =>
      intro h
      obtain ⟨k0, v0⟩ := hd
      by_cases hk : k0 = k
      · subst hk
        simp only [List.map_cons, if_pos rfl]
        exact List.find?_cons_of_pos _ (by simp)
      · have ht : tt.any (fun q => q.1 = k) = true := by
          simpa [List.any_cons, hk] using h
        simp only [List.map_cons, if_neg hk]
        rw [List.find?_cons_of_neg _ (by simpa using hk)]
        exact ih ht

theorem getHeaderList_setHeaderList (hs : List (String × String)) (k v : String) :
    getHeaderList (setHeaderList hs k v) k = some v := by
  unfold setHeaderList getHeaderList
  by_cases h : hs.any (fun p => p.1 = k) = true
  · rw [if_pos h, find?_map_replace k v hs h]
    rfl
  · have h' : hs.any (fun p => p.1 = k) = false := Bool.eq_false_iff.mpr h
    rw [if_neg h, List.find?_append, find?_of_any_false h']
    simp

/-! ## Presentation lemmas -/

theorem present_of_ended (w : ViewState) (b : MVal) (h : w.writableEnded = true) :
    present w b = w := by
  simp [present, h]

theorem presentError_of_ended (w : ViewState) (e : ErrObj) (h : w.writableEnded = true) :
    presentError w e = w := by
  simp [presentError, h]

theorem present_writableEnded (w : ViewState) (b : MVal) (h : w.writableEnded = false) :
    (present w b).writableEnded = true := by
  simp only [present, h, Bool.false_eq_true, if_false]
  split <;> simp [ViewState.endWith]

theorem present_written (w : ViewState) (b : MVal) (h : w.writableEnded = false) :
    (present w b).written = w.written ++ [Payload.jsonBody b] := by
  simp only [present, h, Bool.false_eq_true, if_false]
  split <;> simp [ViewState.endWith]

theorem presentError_writableEnded (w : ViewState) (e : ErrObj) (h : w.writableEnded = false) :
    (presentError w e).writableEnded = true := by
  simp [presentError, h, ViewState.endWith]

/-! ## Claim C5: present and presentError end the downstream at most once -/

/-- C5: `present` writes to and ends the downstream at most once; once either
`present` or `presentError` has ended it, every further call to either is a
no-op (no write, no header change, no status change); and when `present` does
write with headers unsent and no content type set, it first defaults the
content type to `application/json` and ends the downstream with the
JSON-serialized body. -/
theorem claim_C5_present_once (v : ViewState) (b b' : MVal) (e : ErrObj) :
    (v.writableEnded = true → present v b = v ∧ presentError v e = v) ∧
    (v.writableEnded = false →
      (present v b).writableEnded = true ∧
      (present v b).written = v.written ++ [Payload.jsonBody b] ∧
      present (present v b) b' = present v b ∧
      presentError (present v b) e = present v b ∧
      present (presentError v e) b = presentError v e ∧
      (v.headersSent = false → hasHeaderList v.headers "content-type" = false →
        getHeaderList (present v b).headers "content-type" = some "application/json")) := by
  constructor
  · intro h
    exact ⟨present_of_ended v b h, presentError_of_ended v e h⟩
  · intro h
    refine ⟨present_writableEnded v b h, present_written v b h,
      present_of_ended _ b' (present_writableEnded v b h),
      presentError_of_ended _ e (present_writableEnded v b h),
      present_of_ended _ b (presentError_writableEnded v e h), ?_⟩
    intro h1 h2
    simp only [present, h, h1, h2, Bool.false_eq_true, if_false, Bool.not_false,
      Bool.and_self, if_true, ViewState.endWith]
    exact getHeaderList_setHeaderList v.headers "content-type" "application/json"

/-- C5 witness: a fresh response state; `present` ends it and a second
`present` is a no-op. -/
theorem claim_C5_present_once_witness :
    (present ⟨false, false, [], 200, [], none, false, 0⟩ (MVal.str "x")).writableEnded = true ∧
    present (present ⟨false, false, [], 200, [], none, false, 0⟩ (MVal.str "x")) (MVal.str "y") =
      present ⟨false, false, [], 200, [], none, false, 0⟩ (MVal.str "x") :=
  ⟨((claim_C5_present_once ⟨false, false, [], 200, [], none, false, 0⟩
      (MVal.str "x") (MVal.str "y") ⟨"m", none, none, none, none, CauseVal.undef⟩).2 rfl).1,
   ((claim_C5_present_once ⟨false, false, [], 200, [], none, false, 0⟩
      (MVal.str "x") (MVal.str "y") ⟨"m", none, none, none, none, CauseVal.undef⟩).2 rfl).2.2.1⟩

/-! ## Claim C9: the lazily created SSE stream -/

/-- C9: the first read of `view.stream` sets `content-type` to
`text/event-stream`, creates the object-mode transform and pipes it into the
downstream; every later read returns the very same stream object and leaves
the state untouched.  The transform encodes each written object as the frame
`data: <json>\n\n` and fails the write with the channel-transform error kind
exactly when `JSON.stringify` throws. -/
theorem claim_C9_stream_idempotent (v : ViewState) :
    (lazyloadStream (lazyloadStream v).2).1 = (lazyloadStream v).1 ∧
    (lazyloadStream (lazyloadStream v).2).2 = (lazyloadStream v).2 ∧
    (v.streamObj = none →
      ((lazyloadStream v).2.streamObj = some (lazyloadStream v).1 ∧
       getHeaderList (lazyloadStream v).2.headers "content-type" = some "text/event-stream" ∧
       (lazyloadStream v).2.piped = true)) ∧
    (∀ s, v.streamObj = some s → lazyloadStream v = (s, v)) ∧
    (∀ (sv : SVal) (s : String), jsonStringifySVal sv = Except.ok s →
      sseEncode sv = Except.ok ("data: " ++ s ++ "\n\n")) ∧
    (∀ sv : SVal, jsonStringifySVal sv = Except.error () →
      sseEncode sv = Except.error "E_HTTP_SERVER_VIEW_MODEL_CHANNEL_TRANSFORM_FAILED") := by
  refine ⟨?_, ?_, ?_, ?_, ?_, ?_⟩
  · cases hv : v.streamObj <;> simp [lazyloadStream, hv]
  · cases hv : v.streamObj <;> simp [lazyloadStream, hv]
  · intro hv
    refine ⟨by simp [lazyloadStream, hv], ?_, by simp [lazyloadStream, hv]⟩
    simp only [lazyloadStream, hv]
    exact getHeaderList_setHeaderList _ "content-type" "text/event-stream"
  · intro s hv
    simp [lazyloadStream, hv]
  · intro sv s h
    simp [sseEncode, h]
  · intro sv h
    simp [sseEncode, h]

/-- C9 witness: a fresh view state; the first access creates the stream and
sets the content type, and an object containing a BigInt fails the encoder
with the channel-transform kind. -/
theorem claim_C9_stream_idempotent_witness :
    getHeaderList (lazyloadStream ⟨false, false, [], 200, [], none, false, 0⟩).2.headers
        "content-type" = some "text/event-stream" ∧
    sseEncode (SVal.obj [("big", SVal.bigint 1)]) =
      Except.error "E_HTTP_SERVER_VIEW_MODEL_CHANNEL_TRANSFORM_FAILED" :=
  ⟨((claim_C9_stream_idempotent ⟨false, false, [], 200, [], none, false, 0⟩).2.2.1 rfl).2.1,
   (claim_C9_stream_idempotent ⟨false, false, [], 200, [], none, false, 0⟩).2.2.2.2.2
     (SVal.obj [("big", SVal.bigint 1)]) rfl⟩

/-! ## Deep-merge lemmas and claim C8 -/

theorem fieldKeys_cons (a : String) (b : MVal) (l : List (String × MVal)) :
    fieldKeys ((a, b) :: l) = a :: fieldKeys l := rfl

theorem fieldKeys_upsertField (k : String) (v : MVal) :
    ∀ fa : List (String × MVal), fieldKeys (upsertField fa k v) =
      if k ∈ fieldKeys fa then fieldKeys fa else fieldKeys fa ++ [k] := by
  intro fa
  induction fa with
  | nil => simp [upsertField, fieldKeys]
  | cons hd t ih =>
      obtain ⟨k0, v0⟩ := hd
      by_cases hk : k0 = k
      · subst hk
        have hup : upsertField ((k0, v0) :: t) k0 v = (k0, deepmerge v0 v) :: t := by
          simp [upsertField]
        rw [hup]
        rw [if_pos (by simp [fieldKeys_cons])]
        simp [fieldKeys_cons]
      · have hup : upsertField ((k0, v0) :: t) k v = (k0, v0) :: upsertField t k v := by
          simp [upsertField, hk]
        have hkk : ¬k = k0 := fun h => hk h.symm
        simp only [hup, fieldKeys_cons, ih]
        by_cases hm : k ∈ fieldKeys t
        · rw [if_pos hm, if_pos (by simp [hm])]
        · rw [if_neg hm, if_neg (by simp [hkk, hm]), List.cons_append]

theorem mem_fieldKeys_mergeFields :
    ∀ (fb fa : List (String × MVal)) (k : String),
      k ∈ fieldKeys fa → k ∈ fieldKeys (mergeFields fa fb) := by
  intro fb
  induction fb with
  | nil =>
      intro fa k h
      simpa [mergeFields] using h
  | cons hd rest ih =>
      intro fa k h
      obtain ⟨k0, v0⟩ := hd
      rw [mergeFields.eq_2]
      apply ih
      rw [fieldKeys_upsertField]
      split
      · exact h
      · exact List.mem_append_left _ h

theorem nodup_fieldKeys_upsertField (fa : List (String × MVal)) (k : String) (v : MVal)
    (h : (fieldKeys fa).Nodup) : (fieldKeys (upsertField fa k v)).Nodup := by
  rw [fieldKeys_upsertField]
  split
  · exact h
  · next hm => simp [List.nodup_append, h, hm]

theorem nodup_fieldKeys_mergeFields :
    ∀ (fb fa : List (String × MVal)), (fieldKeys fa).Nodup →
      (fieldKeys (mergeFields fa fb)).Nodup := by
  intro fb
  induction fb with
  | nil =>
      intro fa h
      simpa [mergeFields] using h
  | cons hd rest ih =>
      intro fa h
      obtain ⟨k0, v0⟩ := hd
      rw [mergeFields.eq_2]
      exact ih _ (nodup_fieldKeys_upsertField fa k0 v0 h)

theorem deepmerge_eq_right (a b : MVal)
    (h : a.isMapping = false ∨ b.isMapping = false) : deepmerge a b = b := by
  cases a <;> cases b <;> simp_all [deepmerge, MVal.isMapping]

theorem deepmerge_empty_obj (v : MVal) (h : topNodup v) : deepmerge (.obj []) v = v := by
  cases v with
  | obj f =>
      have hd : ∀ k ∈ fieldKeys f, k ∉ fieldKeys ([] : List (String × MVal)) := by
        intro k _
        simp [fieldKeys]
      simp only [deepmerge, mergeFields_append f [] hd (by simpa [topNodup] using h),
        List.nil_append]
  | str s => simp [deepmerge]
  | num n => simp [deepmerge]
  | bool b => simp [deepmerge]
  | null => simp [deepmerge]

theorem topNodup_deepmerge (a b : MVal) (ha : topNodup a) (hb : topNodup b) :
    topNodup (deepmerge a b) := by
  by_cases hbm : b.isMapping = false
  · rw [deepmerge_eq_right a b (Or.inr hbm)]
    exact hb
  · cases b with
    | obj fb =>
        cases a with
        | obj fa =>
            simp only [deepmerge, topNodup]
            exact nodup_fieldKeys_mergeFields fb fa (by simpa [topNodup] using ha)
        | str s => rw [deepmerge_eq_right (MVal.str s) (MVal.obj fb) (Or.inl rfl)]; exact hb
        | num n => rw [deepmerge_eq_right (MVal.num n) (MVal.obj fb) (Or.inl rfl)]; exact hb
        | bool c => rw [deepmerge_eq_right (MVal.bool c) (MVal.obj fb) (Or.inl rfl)]; exact hb
        | null => rw [deepmerge_eq_right MVal.null (MVal.obj fb) (Or.inl rfl)]; exact hb
    | str s => simp [MVal.isMapping] at hbm
    | num n => simp [MVal.isMapping] at hbm
    | bool c => simp [MVal.isMapping] at hbm
    | null => simp [MVal.isMapping] at hbm

theorem foldl_deepmerge_topNodup (vs : List MVal) :
    ∀ a : MVal, topNodup a → (∀ w ∈ vs, topNodup w) → topNodup (vs.foldl deepmerge a) := by
  induction vs with
  | nil => intro a ha _; simpa using ha
  | cons w rest ih =>
      intro a ha hw
      simp only [List.foldl_cons]
      exact ih (deepmerge a w) (topNodup_deepmerge a w ha (hw w (by simp)))
        (fun x hx => hw x (by simp [hx]))

/-- C8: writing N partial objects to `view.body` yields the same final body
as writing their deep merge once into a fresh body; each assignment merges
mappings key-wise (existing top-level keys survive every merge) and lets
non-mapping values overwrite, but never replaces the body at the top level. -/
theorem claim_C8_body_deep_merge (f : List (String × MVal)) (vs : List MVal)
    (hf : (fieldKeys f).Nodup) (hvs : ∀ w ∈ vs, topNodup w) :
    (bodyAfterWrites (MVal.obj f :: vs) =
      deepmerge (MVal.obj []) (vs.foldl deepmerge (MVal.obj f))) ∧
    (∀ fa fb, deepmerge (MVal.obj fa) (MVal.obj fb) = MVal.obj (mergeFields fa fb)) ∧
    (∀ fa fb k, k ∈ fieldKeys fa → k ∈ fieldKeys (mergeFields fa fb)) ∧
    (∀ a b : MVal, b.isMapping = false → deepmerge a b = b) := by
  refine ⟨?_, ?_, ?_, ?_⟩
  · have h1 : deepmerge (MVal.obj []) (MVal.obj f) = MVal.obj f :=
      deepmerge_empty_obj _ (by simpa [topNodup] using hf)
    have h2 : topNodup (vs.foldl deepmerge (MVal.obj f)) :=
      foldl_deepmerge_topNodup vs _ (by simpa [topNodup] using hf) hvs
    rw [bodyAfterWrites, List.foldl_cons, h1, deepmerge_empty_obj _ h2]
  · intro fa fb
    simp [deepmerge]
  · intro fa fb k hk
    exact mem_fieldKeys_mergeFields fb fa k hk
  · intro a b hb
    exact deepmerge_eq_right a b (Or.inr hb)

/-- C8 witness: two concrete partial objects. -/
theorem claim_C8_body_deep_merge_witness :
    (fieldKeys [("a", MVal.num 1)]).Nodup ∧
    bodyAfterWrites [MVal.obj [("a", MVal.num 1)], MVal.obj [("b", MVal.num 2)]] =
      deepmerge (MVal.obj [])
        ([MVal.obj [("b", MVal.num 2)]].foldl deepmerge (MVal.obj [("a", MVal.num 1)])) :=
  ⟨by simp [fieldKeys],
   (claim_C8_body_deep_merge [("a", MVal.num 1)] [MVal.obj [("b", MVal.num 2)]]
      (by simp [fieldKeys])
      (by
        intro w hw
        simp only [List.mem_singleton] at hw
        subst hw
        simp [topNodup, fieldKeys])).1⟩

/-! ## Claim C3: presentError and the detail walk -/

mutual

/-- The source's accumulator-threading walk agrees with the compositional
walk of the amended claim: it appends exactly the details the compositional
walk produces. -/
theorem addDetailToOutput_eq_amended (cause : CauseVal) (seen : List Nat) (acc : List String) :
    addDetailToOutput cause seen acc =
      ((detailsAmended cause seen).1, acc ++ (detailsAmended cause seen).2) := by
  cases cause with
  | undef => simp [addDetailToOutput, detailsAmended]
  | null => simp [addDetailToOutput, detailsAmended]
  | bool b => simp [addDetailToOutput, detailsAmended]
  | num n => simp [addDetailToOutput, detailsAmended]
  | str s => simp [addDetailToOutput, detailsAmended]
  | obj id =>
      by_cases hid : id ∈ seen <;> simp [addDetailToOutput, detailsAmended, hid]
  | arr id elems =>
      by_cases hid : id ∈ seen
      · simp [addDetailToOutput, detailsAmended, hid]
      · simp only [addDetailToOutput, detailsAmended, hid, if_neg, if_false]
        rw [addDetailList_eq_amended elems (id :: seen) acc]
  | err id m code c =>
      by_cases hid : id ∈ seen
      · simp [addDetailToOutput, detailsAmended, hid]
      · by_cases htr : jsTruthy c = true
        · simp only [addDetailToOutput, detailsAmended, hid, htr, if_neg, if_false, if_true]
          rw [addDetailToOutput_eq_amended c (id :: seen)]
          simp [List.append_assoc]
        · have htr' : jsTruthy c = false := Bool.eq_false_iff.mpr htr
          simp [addDetailToOutput, detailsAmended, hid, htr']

/-- List version of `addDetailToOutput_eq_amended`. -/
theorem addDetailList_eq_amended (cs : List CauseVal) (seen : List Nat) (acc : List String) :
    addDetailList cs seen acc =
      ((detailsAmendedList cs seen).1, acc ++ (detailsAmendedList cs seen).2) := by
  cases cs with
  | nil => simp [addDetailList, detailsAmendedList]
  | cons c rest =>
      simp only [addDetailList, detailsAmendedList]
      rw [addDetailToOutput_eq_amended c seen acc]
      rw [addDetailList_eq_amended rest (detailsAmended c seen).1]
      simp [List.append_assoc]

end

/-- C3 counterexample: the claim says that, in the walk, an error's own cause
is walked whenever present, with a non-error non-list cause being stringified
and pushed — so for `e.cause = Error("m", code "c", cause "")` the details
would be `["c - m", ""]`.  The source only recurses when `cause.cause` is
truthy (`if(cause.cause)`), so the empty-string cause stops the walk and the
response carries `details = ["c - m"]`. -/
theorem claim_C3_counterexample :
    (presentError ⟨false, false, [], 200, [], none, false, 0⟩
        ⟨"Top", some "E_TOP", none, none, none,
          CauseVal.err 0 "m" (some "c") (CauseVal.str "")⟩).written =
      [Payload.jsonError
        { status := 500, error := "Top", code := some "E_TOP", details := some ["c - m"] }] ∧
    some ["c - m"] ≠ some ["c - m", ""] := by
  constructor
  · rfl
  · simp

/-- C3 as amended: for every error presented while the downstream is not yet
ended, the status is set from `statusCode ?? status ?? 500` and the
downstream is ended with the JSON serialization of an object holding that
status, `error = e.message`, `code = e.code`, and the details produced by the
walk of `e.cause` — where an error cause contributes its message (prefixed
with `<code> - ` and trimmed when a truthy code is present) and its own cause
is walked only when truthy; a list is walked element by element; an absent
cause stops the walk; other values are stringified and pushed; visited
objects are skipped — with `details` omitted entirely when that list is
empty. -/
theorem claim_C3_present_error (v : ViewState) (e : ErrObj) (h : v.writableEnded = false) :
    (presentError v e).statusCode = e.statusCode.getD (e.status.getD 500) ∧
    (presentError v e).writableEnded = true ∧
    (presentError v e).written = v.written ++
      [Payload.jsonError
        { status := e.statusCode.getD (e.status.getD 500),
          error := e.message,
          code := e.code,
          details := if (detailsAmended e.cause []).2.isEmpty then none
                     else some (detailsAmended e.cause []).2 }] := by
  have hd : (addDetailToOutput e.cause [] []).2 = (detailsAmended e.cause []).2 := by
    rw [addDetailToOutput_eq_amended]
    simp
  refine ⟨?_, ?_, ?_⟩
  · simp only [presentError, h, Bool.false_eq_true, if_false, ViewState.endWith]
  · simp only [presentError, h, Bool.false_eq_true, if_false, ViewState.endWith]
  · simp only [presentError, h, Bool.false_eq_true, if_false, ViewState.endWith, hd]
    cases e.headers <;> (split <;> (try split) <;> simp)

/-- C3 witness: a concrete error with `statusCode = 418` presented on a fresh
downstream. -/
theorem claim_C3_present_error_witness :
    (presentError ⟨false, false, [], 200, [], none, false, 0⟩
        ⟨"E", none, some 418, none, none, CauseVal.undef⟩).statusCode = (418 : Int) := by
  have := (claim_C3_present_error ⟨false, false, [], 200, [], none, false, 0⟩
    ⟨"E", none, some 418, none, none, CauseVal.undef⟩ rfl).1
  simpa using this

/-! ## Gateway lemmas and claim C1 -/

theorem readPrefaceLoop_head (avail : Nat → List UInt8) (ended : Nat → Bool)
    (fuel t : Nat) (bs : List UInt8)
    (hread : socketRead 24 (avail t) (ended t) = some bs) (hf : 0 < fuel) :
    readPrefaceLoop avail ended fuel t = ⟨bs, false, t⟩ := by
  cases fuel with
  | zero => exact absurd hf (by omega)
  | succ f => simp [readPrefaceLoop, hread]

theorem readPrefaceLoop_none (avail : Nat → List UInt8) (ended : Nat → Bool) :
    ∀ fuel t : Nat,
      (∀ i, i < fuel → socketRead 24 (avail (t + i)) (ended (t + i)) = none) →
      readPrefaceLoop avail ended fuel t = ⟨[], true, t + fuel⟩ := by
  intro fuel
  induction fuel with
  | zero => intro t _; simp [readPrefaceLoop]
  | succ f ih =>
      intro t h
      have h0 : socketRead 24 (avail t) (ended t) = none := by
        have := h 0 (by omega)
        simpa using this
      have hrest : ∀ i, i < f → socketRead 24 (avail (t + 1 + i)) (ended (t + 1 + i)) = none := by
        intro i hi
        have := h (i + 1) (by omega)
        have harg : t + (i + 1) = t + 1 + i := by omega
        rwa [harg] at this
      simp only [readPrefaceLoop, h0, ih (t + 1) hrest]
      exact congrArg _ (by omega)

theorem onGatewayConnection_eq_of_read (avail : Nat → List UInt8) (ended : Nat → Bool)
    (deadline : Nat) (bs : List UInt8) (hdl : 0 < deadline)
    (hcond : ((List.range deadline).any fun t => !(avail t).isEmpty || ended t) = true)
    (hread : socketRead 24 (avail 0) (ended 0) = some bs) :
    onGatewayConnection avail ended deadline =
      { destroyed := false,
        handoff := some (if bs = http2Preface then Engine.h2 else Engine.h1),
        finalBuffer := bs ++ (avail 0).drop bs.length } := by
  unfold onGatewayConnection
  rw [if_pos hcond, readPrefaceLoop_head avail ended deadline 0 bs hread hdl]

theorem onGatewayConnection_destroyed_of_none (avail : Nat → List UInt8) (ended : Nat → Bool)
    (deadline : Nat)
    (hnone : ∀ i, i < deadline → socketRead 24 (avail i) (ended i) = none) :
    (onGatewayConnection avail ended deadline).destroyed = true := by
  unfold onGatewayConnection
  by_cases hcond : ((List.range deadline).any fun t => !(avail t).isEmpty || ended t) = true
  · rw [if_pos hcond,
      readPrefaceLoop_none avail ended deadline 0 (by intro i hi; simpa using hnone i hi)]
  · rw [if_neg hcond]

/-- C1 counterexample: a connection that sends 18 non-preface bytes and then
ends its stream (FIN) well before the deadline.  Fewer than 24 bytes ever
arrive, yet the socket is not destroyed: `socket.read(24)` on an ended stream
returns the buffered remainder, the timer is cleared, and the socket is
handed to the HTTP/1.1 engine. -/
theorem claim_C1_counterexample :
    (onGatewayConnection (fun _ => List.replicate 18 (65 : UInt8)) (fun _ => true) 5).destroyed
      = false ∧
    (onGatewayConnection (fun _ => List.replicate 18 (65 : UInt8)) (fun _ => true) 5).handoff
      = some Engine.h1 ∧
    (List.replicate 18 (65 : UInt8)).length < 24 :=
  ⟨rfl, rfl, by decide⟩

/-- C1 as amended: once the first byte is readable the gateway peeks up to 24
octets without consuming them (the peeked prefix is pushed back, restoring
the socket's buffer); when 24 octets are available it routes to the HTTP/2
engine exactly if they equal the preface, else to HTTP/1.1; when fewer than
24 bytes arrive before the 1,000 ms deadline *and the stream has not ended*,
the destroy timer fires and no request can be emitted; but when the stream
ends with a nonempty buffer of fewer than 24 bytes, that remainder is peeked,
pushed back, and the socket is handed to the HTTP/1.1 engine without being
destroyed. -/
theorem claim_C1_gateway_preface (avail : Nat → List UInt8) (ended : Nat → Bool)
    (deadline : Nat) (hdl : 0 < deadline) :
    (24 ≤ (avail 0).length →
      (onGatewayConnection avail ended deadline).destroyed = false ∧
      (onGatewayConnection avail ended deadline).handoff =
        some (if (avail 0).take 24 = http2Preface then Engine.h2 else Engine.h1) ∧
      (onGatewayConnection avail ended deadline).finalBuffer = avail 0) ∧
    ((∀ t, t < deadline → (avail t).length < 24 ∧ ended t = false) →
      (onGatewayConnection avail ended deadline).destroyed = true ∧
      requestPossible (onGatewayConnection avail ended deadline) = false) ∧
    (ended 0 = true → avail 0 ≠ [] → (avail 0).length < 24 →
      (onGatewayConnection avail ended deadline).destroyed = false ∧
      (onGatewayConnection avail ended deadline).handoff = some Engine.h1 ∧
      (onGatewayConnection avail ended deadline).finalBuffer = avail 0) := by
  refine ⟨?_, ?_, ?_⟩
  · intro h24
    have hne : (avail 0).isEmpty = false := by
      cases havail : avail 0 with
      | nil => rw [havail] at h24; simp at h24
      | cons a l => simp
    have hcond : ((List.range deadline).any fun t => !(avail t).isEmpty || ended t) = true := by
      rw [List.any_eq_true]
      exact ⟨0, List.mem_range.mpr hdl, by simp [hne]⟩
    have hread : socketRead 24 (avail 0) (ended 0) = some ((avail 0).take 24) := by
      unfold socketRead
      rw [if_pos h24]
    rw [onGatewayConnection_eq_of_read avail ended deadline _ hdl hcond hread]
    refine ⟨rfl, rfl, ?_⟩
    have hlen : ((avail 0).take 24).length = 24 := by
      rw [List.length_take]
      omega
    simp only [hlen, List.take_append_drop]
  · intro hsmall
    have hnone : ∀ i, i < deadline → socketRead 24 (avail i) (ended i) = none := by
      intro i hi
      obtain ⟨hl, he⟩ := hsmall i hi
      unfold socketRead
      rw [if_neg (by omega), if_neg (by simp [he])]
    have hdes := onGatewayConnection_destroyed_of_none avail ended deadline hnone
    refine ⟨hdes, ?_⟩
    unfold requestPossible
    rw [hdes]
    simp
  · intro hend hne hlen
    have hne' : (avail 0).isEmpty = false := by
      cases havail : avail 0 with
      | nil => exact absurd havail hne
      | cons a l => simp
    have hcond : ((List.range deadline).any fun t => !(avail t).isEmpty || ended t) = true := by
      rw [List.any_eq_true]
      exact ⟨0, List.mem_range.mpr hdl, by simp [hne']⟩
    have hread : socketRead 24 (avail 0) (ended 0) = some (avail 0) := by
      unfold socketRead
      rw [if_neg (by omega), if_pos (by simp [hend, hne'])]
    rw [onGatewayConnection_eq_of_read avail ended deadline _ hdl hcond hread]
    have hpne : (avail 0) ≠ http2Preface := by
      intro hcontra
      have h24 : http2Preface.length = 24 := rfl
      rw [hcontra, h24] at hlen
      omega
    refine ⟨rfl, ?_, ?_⟩
    · simp [hpne]
    · simp

/-- C1 witness: the amended statement applied to three concrete connections —
a full HTTP/2 preface in the first readable burst, a silent connection that
times out, and an 1-byte ended stream handed to h1. -/
theorem claim_C1_gateway_preface_witness :
    (24 ≤ ((fun _ => http2Preface) 0 : List UInt8).length) ∧
    (onGatewayConnection (fun _ => http2Preface) (fun _ => false) 1).destroyed = false ∧
    (onGatewayConnection (fun _ => ([] : List UInt8)) (fun _ => false) 1).destroyed = true ∧
    (onGatewayConnection (fun _ => [(65 : UInt8)]) (fun _ => true) 1).handoff = some Engine.h1 :=
  ⟨by decide,
   ((claim_C1_gateway_preface (fun _ => http2Preface) (fun _ => false) 1 (by decide)).1
      (by decide)).1,
   ((claim_C1_gateway_preface (fun _ => ([] : List UInt8)) (fun _ => false) 1 (by decide)).2.1
      (fun t _ => ⟨by decide, rfl⟩)).1,
   ((claim_C1_gateway_preface (fun _ => [(65 : UInt8)]) (fun _ => true) 1 (by decide)).2.2
      rfl (by simp) (by decide)).2.1⟩

end HttpServer
